import Mathlib

/-!
# Verification of the taskflowManage delegation and chat subsystem

Shallow embedding of the task-delegation state machine and the real-time chat
bridge of the taskflowManage repository, together with proofs about the REST
and realtime access predicates, the send-message pipeline, and the delegation
request lifecycle.

Entity identifiers (Mongo ObjectIds in the source, compared via `toString`)
are modelled as `Nat`.  The document database is modelled as explicit lists of
documents; `Model.findOne(query)` becomes `List.find?` with the query
translated to a boolean predicate.
-/

namespace TaskflowManage

/-! ## Data model -/

/-- User roles (`src/unnamed/part_003`, `userSchema.role.enum`). -/
inductive Role where
  | masteradmin
  | admin
  | employee
  | team_leader
  | bug_fixer
deriving DecidableEq, Repr

/-- A user document, restricted to the fields the chat bridge and delegation
routes read.  `company` is the populated company id (`user.company._id`);
`teams` the populated team ids. -/
structure User where
  id : Nat
  name : String
  role : Role
  company : Nat
  teams : List Nat
  isActive : Bool
deriving DecidableEq, Repr

/-- A project document (`src/backend/models/Project.js`), restricted to the
fields read by the chat bridge and the chat REST route.  `chatRoom` is
`Option` because the schema does not require it (the pre-save hook generates
one for saved documents). -/
structure Project where
  id : Nat
  company : Nat
  team : Nat
  members : List Nat
  chatRoom : Option String
  isActive : Bool
deriving DecidableEq, Repr

/-- The `pre-save` hook of `Project.js` (lines 72-78): a project that reaches
the database always carries a chat room identifier (generated from the
document id and timestamp when absent). -/
def ensureChatRoom (p : Project) (generated : String) : Project :=
  match p.chatRoom with
  | some _ => p
  | none => { p with chatRoom := some generated }

/-- JavaScript truthiness of an optional string value: `undefined` and the
empty string are falsy (`if (content)`, `if (chatRoom)` in the handlers). -/
def truthyStr : Option String → Bool
  | none => false
  | some s => s != ""

/-- The role test `['employee', 'team_leader', 'bug_fixer'].includes(role)`
used by both socket handlers (`handlers.js` lines 38 and 74). -/
def restrictedRole : Role → Bool
  | .employee => true
  | .team_leader => true
  | .bug_fixer => true
  | .masteradmin => false
  | .admin => false

/-! ## Realtime access predicate and join-project -/

/-- The Mongo query built by the `join-project` handler (`handlers.js`
lines 31-45) and identically by the `send-message` handler (lines 67-81):
`_id` and `company` always, plus — only for employee / team_leader /
bug_fixer — an `$or` of explicit membership and team match. -/
def projectAccessQuery (u : User) (projectId : Nat) (p : Project) : Bool :=
  p.id == projectId && p.company == u.company &&
    (if restrictedRole u.role then
      p.members.contains u.id || u.teams.any (fun t => p.team == t)
    else true)

/-- Rooms joined from a project chat-room field: `if (project.chatRoom)
socket.join(project.chatRoom)` — JS truthiness, so the empty string joins
nothing. -/
def chatRoomList : Option String → List String
  | none => []
  | some r => if r == "" then [] else [r]

/-- The primary room name `project-<id>` used by join, send and typing. -/
def projectRoomName (projectId : Nat) : String :=
  "project-" ++ toString projectId

/-- Outcome of `join-project`: either an `error` event or admission to a list
of rooms. -/
inductive JoinResult where
  | errorEvent : String → JoinResult
  | joined : List String → JoinResult
deriving DecidableEq, Repr

/-- The `join-project` handler (`handlers.js` lines 29-60): look the project
up under the access query; emit `error` when nothing matches; otherwise join
`project-<id>` and, when truthy, the project's named chat room. -/
def joinProject (db : List Project) (u : User) (projectId : Nat) : JoinResult :=
  match db.find? (projectAccessQuery u projectId) with
  | none => .errorEvent "Project not found"
  | some p => .joined (projectRoomName projectId :: chatRoomList p.chatRoom)

/-! ## Chat messages and the REST history route -/

/-- File metadata payload (`ChatMessage.js` `file` nested path). -/
structure FileMeta where
  filename : String
  originalName : String
  path : String
  size : Nat
  mimeType : String
deriving DecidableEq, Repr

/-- Code payload (`ChatMessage.js` `code` nested path). -/
structure CodeSnippet where
  language : String
  content : String
deriving DecidableEq, Repr

/-- `messageType` enum of `ChatMessage.js`. -/
inductive MessageType where
  | text
  | file
  | code
deriving DecidableEq, Repr

/-- A chat message document, with the payload fields of `ChatMessage.js`.
`content`, `file` and `code` are each optional in the stored document. -/
structure ChatMessage where
  project : Nat
  task : Option Nat
  sender : Nat
  content : Option String
  messageType : MessageType
  file : Option FileMeta
  code : Option CodeSnippet
deriving DecidableEq, Repr

/-- The conditional `required` validator on `content` as it is written in
`ChatMessage.js` lines 18-23: `return !this.file && !this.code;` read as
"content is required when neither a file nor a code payload is set". -/
def contentRequiredAsWritten (m : ChatMessage) : Bool :=
  m.file.isNone && m.code.isNone

/-- Validation outcome the schema text intends: a message with no file and no
code payload must carry `content`. -/
def chatMessageValidAsWritten (m : ChatMessage) : Bool :=
  !(contentRequiredAsWritten m) || m.content.isSome

/-- Runtime truthiness of the mongoose *nested paths* `this.file` and
`this.code` inside the `required` validator.  `file` and `code` are declared
as nested objects (not subdocument schemas), and mongoose initializes a
nested path to an empty object even when no sub-field was ever set, so
`this.file` and `this.code` are objects — truthy — on every document,
whether or not a payload was provided. -/
def nestedPathTruthy : Option α → Bool :=
  fun _ => true

/-- The `required` validator of `content` as it actually evaluates at
runtime: `!this.file && !this.code` with both nested paths truthy, i.e.
never required. -/
def contentRequired (m : ChatMessage) : Bool :=
  !(nestedPathTruthy m.file) && !(nestedPathTruthy m.code)

/-- Runtime document validation performed by `ChatMessage.create`:
`content` must be present whenever `contentRequired` holds. -/
def chatMessageValid (m : ChatMessage) : Bool :=
  !(contentRequired m) || m.content.isSome

/-- The query of `GET /api/chat/:projectId` (`src/backend/routes/projects.js`
chat route, lines 401-415): only `_id` and `company` — no role-based
member / team filter, unlike the realtime access query. -/
def chatHistoryQuery (u : User) (projectId : Nat) (p : Project) : Bool :=
  p.id == projectId && p.company == u.company

/-- `GET /api/chat/:projectId`: 404 (`none`) when no project matches the
company-scoped lookup, otherwise the messages of the project, narrowed to a
task when `taskId` is passed.  The `createdAt`-ascending sort is not
modelled; the stored list order stands in for it (no claim concerns
ordering). -/
def getChatHistory (db : List Project) (msgs : List ChatMessage) (u : User)
    (projectId : Nat) (taskId : Option Nat) : Option (List ChatMessage) :=
  match db.find? (chatHistoryQuery u projectId) with
  | none => none
  | some _ =>
    some (msgs.filter (fun m =>
      m.project == projectId &&
        (match taskId with
         | some t => m.task == some t
         | none => true)))

/-! ## send-message -/

/-- The client payload of `send-message` (`handlers.js` line 65):
`{ projectId, chatRoom, taskId, content, messageType, file, code }`, every
field beyond `projectId` optional. -/
structure SendMessageData where
  projectId : Nat
  chatRoom : Option String
  taskId : Option Nat
  content : Option String
  messageType : Option MessageType
  file : Option FileMeta
  code : Option CodeSnippet
deriving DecidableEq, Repr

/-- Outcome of `send-message`: an `error` event, or a persisted message
together with the list of rooms a `new-message` event is emitted to (in emit
order). -/
inductive SendResult where
  | errorEvent : String → SendResult
  | sent : ChatMessage → List String → SendResult
deriving DecidableEq, Repr

/-- The `messageData` object built in `handlers.js` lines 88-98:
`messageType` is the client value or the `text` default; `task`, `content`,
`file` and `code` are copied only when truthy (for `content` a non-empty
string; `taskId` is an ObjectId string, truthy whenever present; `file` and
`code` are objects, truthy whenever present). -/
def buildMessageData (u : User) (d : SendMessageData) : ChatMessage :=
  { project := d.projectId
    task := d.taskId
    sender := u.id
    content := if truthyStr d.content then d.content else none
    messageType := d.messageType.getD .text
    file := d.file
    code := d.code }

/-- Rooms a successful `send-message` emits `new-message` to
(`handlers.js` lines 104-108): always `project-<projectId>`, then the
client-supplied `chatRoom` when truthy.  The project's stored `chatRoom`
field is not consulted here. -/
def sendEmitRooms (d : SendMessageData) : List String :=
  projectRoomName d.projectId :: (if truthyStr d.chatRoom then d.chatRoom.toList else [])

/-- The `send-message` handler (`handlers.js` lines 63-113): re-check project
access with the same query as `join-project`; on a match build the message,
run schema validation (`ChatMessage.create`; a validation failure is caught
and surfaces as the generic `Error sending message` event with nothing
persisted), then emit to the rooms of `sendEmitRooms`. -/
def sendMessage (db : List Project) (u : User) (d : SendMessageData) : SendResult :=
  match db.find? (projectAccessQuery u d.projectId) with
  | none => .errorEvent "Project not found"
  | some _ =>
    let m := buildMessageData u d
    if chatMessageValid m then .sent m (sendEmitRooms d)
    else .errorEvent "Error sending message"

/-! ## typing / stop-typing -/

/-- The client payload of `typing` / `stop-typing`. -/
structure TypingData where
  projectId : Nat
  taskId : Option Nat
deriving DecidableEq, Repr

/-- A broadcast produced by the typing handlers: event name, target room,
whether the sender socket is excluded (`socket.to` excludes it), and the
payload fields put on the wire. -/
structure TypingBroadcast where
  event : String
  room : String
  excludesSender : Bool
  userId : Nat
  userName : Option String
  taskId : Option Nat
deriving DecidableEq, Repr

/-- The `typing` handler (`handlers.js` lines 116-122): unconditionally
broadcast `user-typing` to `project-<projectId>` minus the sender, with no
project lookup and no access check (the handler reads only `socket.user` and
the raw payload). -/
def typingHandler (u : User) (d : TypingData) : TypingBroadcast :=
  { event := "user-typing"
    room := projectRoomName d.projectId
    excludesSender := true
    userId := u.id
    userName := some u.name
    taskId := d.taskId }

/-- The `stop-typing` handler (`handlers.js` lines 124-129): same shape,
without the user name. -/
def stopTypingHandler (u : User) (d : TypingData) : TypingBroadcast :=
  { event := "user-stop-typing"
    room := projectRoomName d.projectId
    excludesSender := true
    userId := u.id
    userName := none
    taskId := d.taskId }

/-! ## Task delegation -/

/-- Delegation request status (`pending`/`accepted`/`rejected`). -/
inductive ReqStatus where
  | pending
  | accepted
  | rejected
deriving DecidableEq, Repr

/-- An embedded delegation request.  Modelled from the spec: the `Task.js`
model file is not under `src/`, so the subdocument shape comes from spec §4.1
(`{ id, fromUser, toUser, reason, status, createdAt }`; `createdAt` is not
modelled, no claim reads it) and matches every field the routes in
`src/unnamed/part_004` read or write. -/
structure DelegationRequest where
  id : Nat
  fromUser : Nat
  toUser : Nat
  reason : String
  status : ReqStatus
deriving DecidableEq, Repr

/-- A task document.  Modelled from the spec: `Task.js` is not under `src/`;
fields are those of spec §3 that the delegation routes in
`src/unnamed/part_004` consult (`assignedTo`, `company`, `project`,
`isActive`, `delegationRequests`), plus `title` standing in for the
descriptive fields untouched by delegation. -/
structure Task where
  id : Nat
  title : String
  project : Nat
  company : Nat
  assignedTo : Nat
  delegationRequests : List DelegationRequest
  isActive : Bool
deriving DecidableEq, Repr

/-- Outcome of `POST /api/tasks/:id/delegate`, one constructor per response
of the route in `src/unnamed/part_004` lines 243-320. -/
inductive DelegateResult where
  | validationFailed
  | taskNotFound
  | notProjectMember
  | targetNotInCompany
  | duplicatePending
  | serverError
  | success
deriving DecidableEq, Repr

/-- `String.prototype.trim` of the validator chain and of `reason.trim()`:
drop whitespace from both ends (defined over the character list so that it
evaluates by kernel reduction). -/
def jsTrim (s : String) : String :=
  ⟨((s.data.dropWhile Char.isWhitespace).reverse.dropWhile Char.isWhitespace).reverse⟩

/-- The task lookup of the delegate route (`part_004` lines 261-266):
`_id`, `assignedTo: caller`, `company: caller.company`, `isActive: true`. -/
def delegateTaskQuery (caller : User) (taskId : Nat) (t : Task) : Bool :=
  t.id == taskId && t.assignedTo == caller.id &&
    t.company == caller.company && t.isActive

/-- The `existingRequest` search of `part_004` lines 292-295:

  `task.delegationRequests.find(req => req.status === 'pending' &&
      req.fromUser.toString() === req.user.id)`

The callback parameter `req` shadows the Express request object, so
`req.user` reads a field that does not exist on a delegation subdocument
(`undefined`), and `req.user.id` throws a `TypeError` the moment the first
conjunct is true.  `find` evaluates elements in order and short-circuits `&&`,
so the search throws exactly when some element has status `pending`, and
returns `undefined` otherwise; the `fromUser === caller` comparison is never
reached.  `Except.error` models the thrown `TypeError` (caught by the route's
outer `try`, producing the generic 500). -/
def existingRequestSearch : List DelegationRequest → Except Unit (Option DelegationRequest)
  | [] => .ok none
  | r :: rest =>
    if r.status == .pending then .error ()
    else existingRequestSearch rest

/-- `POST /api/tasks/:id/delegate` (`part_004` lines 243-320).  Inputs: the
authenticated caller, the task id, the body (`toUserId`, `reason`), the
database (tasks, projects for the member populate, users for the target-user
lookup) and a fresh subdocument id for the appended request.  Returns the
response and the updated task list (unchanged on every non-success path). -/
def delegateTask (tasks : List Task) (projects : List Project) (users : List User)
    (caller : User) (taskId toUserId : Nat) (reason : String) (freshId : Nat) :
    DelegateResult × List Task :=
  if (jsTrim reason).length < 1 || (jsTrim reason).length > 500 then
    (.validationFailed, tasks)
  else
    match tasks.find? (delegateTaskQuery caller taskId) with
    | none => (.taskNotFound, tasks)
    | some task =>
      match projects.find? (fun p => p.id == task.project) with
      | none => (.serverError, tasks)
      | some proj =>
        if !(proj.members.contains toUserId) then (.notProjectMember, tasks)
        else
          match users.find? (fun v =>
              v.id == toUserId && v.company == caller.company && v.isActive) with
          | none => (.targetNotInCompany, tasks)
          | some _ =>
            match existingRequestSearch task.delegationRequests with
            | .error _ => (.serverError, tasks)
            | .ok (some _) => (.duplicatePending, tasks)
            | .ok none =>
              let newReq : DelegationRequest :=
                { id := freshId
                  fromUser := caller.id
                  toUser := toUserId
                  reason := jsTrim reason
                  status := .pending }
              let task2 := { task with
                delegationRequests := task.delegationRequests ++ [newReq] }
              (.success, tasks.map (fun t => if t.id == task.id then task2 else t))

/-- The body `action` of `PUT /api/tasks/delegation-requests/:requestId`
(validated to `accept` or `reject`). -/
inductive DelegationAction where
  | accept
  | reject
deriving DecidableEq, Repr

/-- Outcome of `PUT /api/tasks/delegation-requests/:requestId`
(`part_004` lines 366-430). -/
inductive ResolveResult where
  | requestNotFound
  | alreadyProcessed
  | success
deriving DecidableEq, Repr

/-- The task lookup of the resolve route (`part_004` lines 386-391):

  `{'delegationRequests._id': requestId, 'delegationRequests.toUser': caller,
    company: caller.company, isActive: true}`

Note the two array conditions are separate Mongo path conditions, not an
`$elemMatch`: they may be satisfied by two different elements of the array. -/
def resolveTaskQuery (caller : User) (requestId : Nat) (t : Task) : Bool :=
  t.delegationRequests.any (fun r => r.id == requestId) &&
    t.delegationRequests.any (fun r => r.toUser == caller.id) &&
    t.company == caller.company && t.isActive

/-- In-place status update of the subdocument found by
`task.delegationRequests.id(requestId)` (first match by id). -/
def setRequestStatus (requestId : Nat) (st : ReqStatus) :
    List DelegationRequest → List DelegationRequest
  | [] => []
  | r :: rest =>
    if r.id == requestId then { r with status := st } :: rest
    else r :: setRequestStatus requestId st rest

/-- `PUT /api/tasks/delegation-requests/:requestId` (`part_004` lines
366-430): find the task under `resolveTaskQuery`; find the addressed request
by id; reject non-pending requests with the already-processed error; set the
request status from the action, and on `accept` also reassign the task to
the caller (`task.assignedTo = req.user.id`).  No comparison of the caller
against the resolved request's own `toUser` occurs anywhere on this path.
Returns the response and the updated task list. -/
def resolveDelegationRequest (tasks : List Task) (caller : User)
    (requestId : Nat) (action : DelegationAction) : ResolveResult × List Task :=
  match tasks.find? (resolveTaskQuery caller requestId) with
  | none => (.requestNotFound, tasks)
  | some task =>
    match task.delegationRequests.find? (fun r => r.id == requestId) with
    | none => (.requestNotFound, tasks)
    | some request =>
      if request.status != .pending then (.alreadyProcessed, tasks)
      else
        let newStatus : ReqStatus :=
          match action with
          | .accept => .accepted
          | .reject => .rejected
        let task2 : Task :=
          { task with
            assignedTo := match action with
              | .accept => caller.id
              | .reject => task.assignedTo
            delegationRequests := setRequestStatus requestId newStatus task.delegationRequests }
        (.success, tasks.map (fun t => if t.id == task.id then task2 else t))

/-! ## Theorems

### C1 — REST / realtime access parity -/

/-- A same-company employee with no membership and no team match, and a
project of that company: the configuration separating the two access
predicates. -/
def c1OutsiderUser : User :=
  { id := 1, name := "eve", role := .employee, company := 1, teams := [], isActive := true }

def c1Project : Project :=
  { id := 5, company := 1, team := 9, members := [], chatRoom := some "room5", isActive := true }

/-- C1: the claimed equivalence between realtime join access and REST chat
history access is false.  User 1 is an employee of company 1, not a member of
project 5 and with no matching team, so `join-project` denies; yet
`GET /api/chat/5` succeeds, because the REST route checks only that the
project belongs to the caller's company. -/
theorem c1_counterexample :
    joinProject [c1Project] c1OutsiderUser 5 = .errorEvent "Project not found" ∧
    getChatHistory [c1Project] [] c1OutsiderUser 5 none = some [] := by
  exact ⟨rfl, rfl⟩

/-- C1 (amended): the inclusion that does hold — every user admitted to a
project's chat room by `join-project` can also retrieve that project's
message history over REST; the realtime query strengthens the REST query
with the member / team-match disjunction for restricted roles, so join
access implies REST access but not conversely. -/
theorem c1_join_access_implies_rest_access (db : List Project)
    (msgs : List ChatMessage) (u : User) (pid : Nat) (tid : Option Nat)
    (rooms : List String) (h : joinProject db u pid = .joined rooms) :
    (getChatHistory db msgs u pid tid).isSome := by
  have hex : ∃ p, p ∈ db ∧ projectAccessQuery u pid p = true := by
    unfold joinProject at h
    cases hf : db.find? (projectAccessQuery u pid) with
    | none => rw [hf] at h; exact absurd h (by simp)
    | some p => exact ⟨p, List.mem_of_find?_eq_some hf, List.find?_some hf⟩
  obtain ⟨p, hp, hq⟩ := hex
  have hq2 : chatHistoryQuery u pid p = true := by
    unfold projectAccessQuery at hq
    unfold chatHistoryQuery
    simp only [Bool.and_eq_true] at hq ⊢
    exact hq.1
  have hsome : (db.find? (chatHistoryQuery u pid)).isSome :=
    List.find?_isSome.mpr ⟨p, hp, hq2⟩
  unfold getChatHistory
  cases hf2 : db.find? (chatHistoryQuery u pid) with
  | none => rw [hf2] at hsome; exact absurd hsome (by simp)
  | some q => simp

/-- C1 witness: a listed member of project 5 joins the room, and the implied
REST access is concrete. -/
theorem c1_join_access_implies_rest_access_witness :
    (getChatHistory
      [{ id := 5, company := 1, team := 9, members := [2], chatRoom := some "room5", isActive := true }]
      []
      { id := 2, name := "bob", role := .employee, company := 1, teams := [], isActive := true }
      5 none).isSome :=
  c1_join_access_implies_rest_access
    [{ id := 5, company := 1, team := 9, members := [2], chatRoom := some "room5", isActive := true }]
    []
    { id := 2, name := "bob", role := .employee, company := 1, teams := [], isActive := true }
    5 none ["project-5", "room5"] rfl

/-! ### Validation is vacuous at runtime (shared lemma) -/

/-- On every document the runtime `required` condition for `content` is
false (both nested paths are truthy), so schema validation always passes. -/
theorem chatMessageValid_always (m : ChatMessage) : chatMessageValid m = true := by
  unfold chatMessageValid contentRequired nestedPathTruthy
  simp

/-- Anatomy of a successful send: the persisted message is exactly
`buildMessageData` and the emit rooms are exactly `sendEmitRooms`. -/
theorem sendMessage_sent_eq (db : List Project) (u : User) (d : SendMessageData)
    (m : ChatMessage) (rooms : List String) (h : sendMessage db u d = .sent m rooms) :
    m = buildMessageData u d ∧ rooms = sendEmitRooms d := by
  unfold sendMessage at h
  cases hf : db.find? (projectAccessQuery u d.projectId) with
  | none => rw [hf] at h; exact absurd h (by simp)
  | some p =>
    rw [hf] at h
    simp only [chatMessageValid_always, if_pos] at h
    cases h
    exact ⟨rfl, rfl⟩

/-! ### C6 — payload kind selection -/

def c6Member : User :=
  { id := 3, name := "ann", role := .employee, company := 1, teams := [], isActive := true }

def c6Project : Project :=
  { id := 5, company := 1, team := 9, members := [3], chatRoom := some "room5", isActive := true }

/-- A payload carrying all three optional kinds at once and no explicit
`messageType`. -/
def c6Data : SendMessageData :=
  { projectId := 5
    chatRoom := none
    taskId := none
    content := some "hi"
    messageType := none
    file := some { filename := "f", originalName := "f.txt", path := "p", size := 1, mimeType := "text/plain" }
    code := some { language := "js", content := "x" } }

/-- C6: false as stated.  A single `send-message` input carrying `content`,
`file` and `code` simultaneously is persisted with all three payload kinds
populated (not exactly one), and its `messageType` is the `text` default
rather than being determined by the populated fields (a file payload is
present, yet the stored kind is `text`). -/
theorem c6_counterexample :
    sendMessage [c6Project] c6Member c6Data
      = .sent (buildMessageData c6Member c6Data) (sendEmitRooms c6Data) ∧
    (buildMessageData c6Member c6Data).content.isSome = true ∧
    (buildMessageData c6Member c6Data).file.isSome = true ∧
    (buildMessageData c6Member c6Data).code.isSome = true ∧
    (buildMessageData c6Member c6Data).messageType = .text := by
  refine ⟨rfl, rfl, rfl, rfl, rfl⟩

/-- C6 (amended): the persisted payload mirrors the input field by field:
`content` is stored when a non-empty string was sent, `file` and `code`
whenever present, each independently of the others, and `messageType` is the
client-sent value defaulting to `text` — several kinds (or none) may be
populated on one persisted message. -/
theorem c6_payload_mirrors_input (db : List Project) (u : User)
    (d : SendMessageData) (m : ChatMessage) (rooms : List String)
    (h : sendMessage db u d = .sent m rooms) :
    m.content = (if truthyStr d.content then d.content else none) ∧
    m.file = d.file ∧
    m.code = d.code ∧
    m.messageType = d.messageType.getD .text ∧
    m.task = d.taskId := by
  obtain ⟨hm, _⟩ := sendMessage_sent_eq db u d m rooms h
  subst hm
  exact ⟨rfl, rfl, rfl, rfl, rfl⟩

/-- C6 witness: the amended statement at the concrete all-kinds input. -/
theorem c6_payload_mirrors_input_witness :
    (buildMessageData c6Member c6Data).content = (if truthyStr c6Data.content then c6Data.content else none) ∧
    (buildMessageData c6Member c6Data).file = c6Data.file ∧
    (buildMessageData c6Member c6Data).code = c6Data.code ∧
    (buildMessageData c6Member c6Data).messageType = c6Data.messageType.getD .text ∧
    (buildMessageData c6Member c6Data).task = c6Data.taskId :=
  c6_payload_mirrors_input [c6Project] c6Member c6Data
    (buildMessageData c6Member c6Data) (sendEmitRooms c6Data) rfl

/-! ### C7 — broadcast rooms -/

def c7Member : User :=
  { id := 4, name := "joe", role := .employee, company := 1, teams := [], isActive := true }

def c7Project : Project :=
  { id := 6, company := 1, team := 9, members := [4], chatRoom := some "room6", isActive := true }

/-- A well-formed text payload whose `chatRoom` field is left out. -/
def c7Data : SendMessageData :=
  { projectId := 6
    chatRoom := none
    taskId := none
    content := some "hello"
    messageType := some .text
    file := none
    code := none }

/-- C7: false as stated.  Project 6 has the named chat room `room6`, yet a
successfully persisted message whose payload omits `chatRoom` is emitted
only to `project-6`: the handler broadcasts to the *client-supplied*
`chatRoom` value, never consulting the project's stored one, so subscribers
of `room6` receive nothing (loss relative to the claim). -/
theorem c7_counterexample :
    c7Project.chatRoom = some "room6" ∧
    sendMessage [c7Project] c7Member c7Data
      = .sent (buildMessageData c7Member c7Data) ["project-6"] ∧
    (["project-6"] : List String).contains "room6" = false := by
  refine ⟨rfl, rfl, rfl⟩

/-- C7 (amended): a successful send emits `new-message` exactly to
`project-<projectId>` followed by the client-supplied `chatRoom` when that
field is a non-empty string (the project's stored chat room plays no role),
and whenever the supplied `chatRoom` differs from the primary room name the
emitted room list has no duplicates — each subscriber receives the message
exactly once per room it is in. -/
theorem c7_emit_rooms (db : List Project) (u : User) (d : SendMessageData)
    (m : ChatMessage) (rooms : List String)
    (h : sendMessage db u d = .sent m rooms) :
    rooms = projectRoomName d.projectId
      :: (if truthyStr d.chatRoom then d.chatRoom.toList else []) ∧
    (d.chatRoom ≠ some (projectRoomName d.projectId) → rooms.Nodup) := by
  obtain ⟨_, hr⟩ := sendMessage_sent_eq db u d m rooms h
  subst hr
  refine ⟨rfl, ?_⟩
  intro hne
  unfold sendEmitRooms
  cases hcr : d.chatRoom with
  | none => simp [truthyStr]
  | some r =>
    by_cases hemp : r = ""
    · simp [truthyStr, hemp]
    · have : r ≠ projectRoomName d.projectId := by
        intro he
        exact hne (by rw [hcr, he])
      simp [truthyStr, hemp, Option.toList, List.nodup_cons, this]
      intro hc
      exact this hc.symm

/-- C7 witness: the amended statement at a concrete input that does send a
distinct chat room name. -/
theorem c7_emit_rooms_witness :
    (["project-6", "room6"] : List String) = projectRoomName 6
      :: (if truthyStr (some "room6") then (some "room6").toList else []) ∧
    (some "room6" ≠ some (projectRoomName 6) → (["project-6", "room6"] : List String).Nodup) := by
  have h := c7_emit_rooms [c7Project] c7Member
    { projectId := 6, chatRoom := some "room6", taskId := none,
      content := some "hello", messageType := some .text, file := none, code := none }
    (buildMessageData c7Member
      { projectId := 6, chatRoom := some "room6", taskId := none,
        content := some "hello", messageType := some .text, file := none, code := none })
    ["project-6", "room6"] rfl
  exact h

/-! ### C8 — empty-payload rejection -/

def c8Member : User :=
  { id := 7, name := "kim", role := .employee, company := 1, teams := [], isActive := true }

def c8Project : Project :=
  { id := 8, company := 1, team := 9, members := [7], chatRoom := some "room8", isActive := true }

/-- A payload with none of `content` / `file` / `code`. -/
def c8Data : SendMessageData :=
  { projectId := 8
    chatRoom := none
    taskId := none
    content := none
    messageType := none
    file := none
    code := none }

/-- C8: the code at the failing input.  A `send-message` with none of
`content` / `file` / `code` is persisted (as an empty `text` message) and
broadcast, because the conditional `required` validator on `content` reads
the mongoose nested paths `this.file` / `this.code`, which are initialized
to (truthy) empty objects even when unset — while the validator as written
(`!this.file && !this.code` over actual payload presence) would have
rejected exactly this document. -/
theorem c8_empty_message_persisted :
    sendMessage [c8Project] c8Member c8Data
      = .sent (buildMessageData c8Member c8Data) ["project-8"] ∧
    (buildMessageData c8Member c8Data).content = none ∧
    (buildMessageData c8Member c8Data).file = none ∧
    (buildMessageData c8Member c8Data).code = none ∧
    (buildMessageData c8Member c8Data).messageType = .text ∧
    chatMessageValidAsWritten (buildMessageData c8Member c8Data) = false := by
  refine ⟨rfl, rfl, rfl, rfl, rfl, rfl⟩

/-! ### C10 — typing events bypass access control -/

/-- C10: for every authenticated active user and any `projectId` — including
one the user cannot join (`join-project` denies on the same `db`) — the
`typing` and `stop-typing` handlers broadcast `user-typing` /
`user-stop-typing` to everyone in `project-<projectId>` except the sender,
with no project lookup and no access check. -/
theorem c10_typing_bypasses_access (db : List Project) (u : User)
    (d : TypingData) (_hactive : u.isActive = true)
    (_hdenied : joinProject db u d.projectId = .errorEvent "Project not found") :
    typingHandler u d =
      { event := "user-typing", room := projectRoomName d.projectId,
        excludesSender := true, userId := u.id, userName := some u.name,
        taskId := d.taskId } ∧
    stopTypingHandler u d =
      { event := "user-stop-typing", room := projectRoomName d.projectId,
        excludesSender := true, userId := u.id, userName := none,
        taskId := d.taskId } :=
  ⟨rfl, rfl⟩

/-- C10 witness: a concrete active user with no access to project 99 (empty
project database) still produces both broadcasts. -/
theorem c10_typing_bypasses_access_witness :
    typingHandler
      { id := 9, name := "zed", role := .employee, company := 1, teams := [], isActive := true }
      { projectId := 99, taskId := none } =
      { event := "user-typing", room := projectRoomName 99,
        excludesSender := true, userId := 9, userName := some "zed",
        taskId := none } ∧
    stopTypingHandler
      { id := 9, name := "zed", role := .employee, company := 1, teams := [], isActive := true }
      { projectId := 99, taskId := none } =
      { event := "user-stop-typing", room := projectRoomName 99,
        excludesSender := true, userId := 9, userName := none,
        taskId := none } :=
  c10_typing_bypasses_access []
    { id := 9, name := "zed", role := .employee, company := 1, teams := [], isActive := true }
    { projectId := 99, taskId := none } rfl rfl

/-! ### C2 — create-delegation-request -/

def c2Caller : User :=
  { id := 10, name := "al", role := .employee, company := 1, teams := [], isActive := true }

def c2Target : User :=
  { id := 20, name := "bo", role := .employee, company := 1, teams := [], isActive := true }

def c2Project : Project :=
  { id := 200, company := 1, team := 9, members := [10, 20], chatRoom := none, isActive := true }

/-- The task already carrying a pending request from the caller. -/
def c2Task : Task :=
  { id := 100, title := "t", project := 200, company := 1, assignedTo := 10
    delegationRequests := [{ id := 1, fromUser := 10, toUser := 20, reason := "x", status := .pending }]
    isActive := true }

/-- The same task with no delegation requests yet. -/
def c2TaskEmpty : Task :=
  { c2Task with delegationRequests := [] }

/-- C2: the code at the failing input.  First conjunct: caller 10 (the
assignee) re-delegates task 100 while their own pending request sits on it —
the route answers with the generic 500 (`serverError`) instead of the
descriptive duplicate-pending rejection, because the shadowed `req` in the
`find` callback throws a `TypeError` on the first pending element; the task
list is unchanged.  Second conjunct: the descriptive branch is dead code —
`existingRequestSearch` can only return `ok none` or throw, never
`ok (some _)`, so `duplicatePending` is unreachable for every request list.
Third conjunct: when no pending request exists at all, creation does behave
as claimed — a pending request is appended and the assignee is untouched. -/
theorem c2_duplicate_pending_is_server_error :
    delegateTask [c2Task] [c2Project] [c2Caller, c2Target] c2Caller 100 20 "again" 7
      = (.serverError, [c2Task]) ∧
    (∀ l : List DelegationRequest,
      existingRequestSearch l = .ok none ∨ existingRequestSearch l = .error ()) ∧
    delegateTask [c2TaskEmpty] [c2Project] [c2Caller, c2Target] c2Caller 100 20 "vacation" 7
      = (.success,
         [{ c2TaskEmpty with delegationRequests :=
            [{ id := 7, fromUser := 10, toUser := 20, reason := "vacation", status := .pending }] }]) := by
  refine ⟨by decide, ?_, by decide⟩
  intro l
  induction l with
  | nil => exact Or.inl rfl
  | cons a rest ih =>
    unfold existingRequestSearch
    by_cases ha : (a.status == ReqStatus.pending) = true
    · rw [if_pos ha]; exact Or.inr rfl
    · rw [if_neg ha]; exact ih

/-! ### C3 — who may resolve a request -/

def c3Caller : User :=
  { id := 30, name := "carl", role := .employee, company := 1, teams := [], isActive := true }

/-- A task holding two pending requests: request 1 addressed to user 20 and
request 2 addressed to user 30. -/
def c3Task : Task :=
  { id := 101, title := "t3", project := 200, company := 1, assignedTo := 10
    delegationRequests :=
      [{ id := 1, fromUser := 10, toUser := 20, reason := "a", status := .pending },
       { id := 2, fromUser := 10, toUser := 30, reason := "b", status := .pending }]
    isActive := true }

/-- C3: false as stated.  User 30 — the `toUser` of request 2 but *not* of
request 1 — successfully accepts request 1 (addressed to user 20): the
lookup only demands that *some* request on the task be addressed to the
caller, and the accept branch then assigns the task to the caller.  So a
resolve by a user other than `R.toUser` can succeed and mutate the task. -/
theorem c3_counterexample :
    (resolveDelegationRequest [c3Task] c3Caller 1 .accept).1 = .success ∧
    (c3Task.delegationRequests.find? (fun r => r.id == 1)).map DelegationRequest.toUser
      = some 20 ∧
    c3Caller.id = 30 ∧
    (c3Caller.id == 20) = false ∧
    (resolveDelegationRequest [c3Task] c3Caller 1 .accept).2 =
      [{ c3Task with
         assignedTo := 30
         delegationRequests :=
           [{ id := 1, fromUser := 10, toUser := 20, reason := "a", status := .accepted },
            { id := 2, fromUser := 10, toUser := 30, reason := "b", status := .pending }] }] := by
  refine ⟨rfl, rfl, rfl, rfl, rfl⟩

/-- C3 (amended): a resolve succeeds exactly under the route's query — the
caller must be the `toUser` of *some* delegation request on the task (not
necessarily the one being resolved), the task must be in the caller's
company and active, and the addressed request must exist and be pending. -/
theorem c3_success_caller_addressed_on_task (tasks : List Task) (caller : User)
    (requestId : Nat) (action : DelegationAction) (ts2 : List Task)
    (h : resolveDelegationRequest tasks caller requestId action = (.success, ts2)) :
    ∃ t, t ∈ tasks ∧ t.company = caller.company ∧ t.isActive = true ∧
      (∃ r0, r0 ∈ t.delegationRequests ∧ r0.toUser = caller.id) ∧
      (∃ r, t.delegationRequests.find? (fun x => x.id == requestId) = some r ∧
        r.status = ReqStatus.pending) := by
  unfold resolveDelegationRequest at h
  split at h
  next ht => exact absurd h (by simp)
  next t ht =>
    split at h
    next hr => exact absurd h (by simp)
    next r hr =>
      split at h
      next hp => exact absurd h (by simp)
      next hp =>
        have hpend : r.status = ReqStatus.pending := by
          cases hs : r.status with
          | pending => rfl
          | accepted => rw [hs] at hp; exact absurd (by decide) hp
          | rejected => rw [hs] at hp; exact absurd (by decide) hp
        have hq := List.find?_some ht
        have hmem := List.mem_of_find?_eq_some ht
        unfold resolveTaskQuery at hq
        simp only [Bool.and_eq_true] at hq
        obtain ⟨⟨⟨_hid, hto⟩, hcomp⟩, hact⟩ := hq
        obtain ⟨r0, hr0mem, hr0⟩ := List.any_eq_true.mp hto
        exact ⟨t, hmem, eq_of_beq hcomp, hact, ⟨r0, hr0mem, eq_of_beq hr0⟩, r, hr, hpend⟩

def c3wTask : Task :=
  { id := 110, title := "t3w", project := 200, company := 1, assignedTo := 10
    delegationRequests := [{ id := 3, fromUser := 10, toUser := 20, reason := "v", status := .pending }]
    isActive := true }

def c3wCaller : User :=
  { id := 20, name := "bea", role := .employee, company := 1, teams := [], isActive := true }

/-- C3 witness: the amended statement at a concrete successful resolve (the
ordinary case where the caller is the addressed `toUser`). -/
theorem c3_success_caller_addressed_on_task_witness :
    ∃ t, t ∈ [c3wTask] ∧ t.company = c3wCaller.company ∧ t.isActive = true ∧
      (∃ r0, r0 ∈ t.delegationRequests ∧ r0.toUser = c3wCaller.id) ∧
      (∃ r, t.delegationRequests.find? (fun x => x.id == 3) = some r ∧
        r.status = ReqStatus.pending) :=
  c3_success_caller_addressed_on_task [c3wTask] c3wCaller 3 .accept
    (resolveDelegationRequest [c3wTask] c3wCaller 3 .accept).2 rfl

/-! ### C4 — effect of accepting a request -/

/-- Elements whose id differs from the updated one are untouched by
`setRequestStatus` (in particular, other pending requests stay pending). -/
theorem setRequestStatus_preserves_other (requestId : Nat) (st : ReqStatus) :
    ∀ l : List DelegationRequest, ∀ r ∈ l, r.id ≠ requestId →
      r ∈ setRequestStatus requestId st l := by
  intro l
  induction l with
  | nil => intro r hr _; cases hr
  | cons a rest ih =>
    intro r hr hne
    unfold setRequestStatus
    by_cases ha : (a.id == requestId) = true
    · rw [if_pos ha]
      cases hr with
      | head => exact absurd (eq_of_beq ha) hne
      | tail _ hmem => exact List.mem_cons_of_mem _ hmem
    · rw [if_neg ha]
      cases hr with
      | head => exact List.mem_cons_self _ _
      | tail _ hmem => exact List.mem_cons_of_mem _ (ih r hmem hne)

/-- The addressed request, after `setRequestStatus`, is found with exactly
its status replaced. -/
theorem find?_setRequestStatus (requestId : Nat) (st : ReqStatus) :
    ∀ l : List DelegationRequest, ∀ r : DelegationRequest,
      l.find? (fun x => x.id == requestId) = some r →
      (setRequestStatus requestId st l).find? (fun x => x.id == requestId)
        = some { r with status := st } := by
  intro l
  induction l with
  | nil => intro r h; exact absurd h (by simp)
  | cons a rest ih =>
    intro r h
    by_cases ha : (a.id == requestId) = true
    · rw [List.find?_cons_of_pos (p := fun x : DelegationRequest => x.id == requestId) rest ha] at h
      cases h
      unfold setRequestStatus
      rw [if_pos ha]
      exact List.find?_cons_of_pos (p := fun x : DelegationRequest => x.id == requestId) _ ha
    · rw [List.find?_cons_of_neg (p := fun x : DelegationRequest => x.id == requestId) rest ha] at h
      unfold setRequestStatus
      rw [if_neg ha]
      rw [List.find?_cons_of_neg (p := fun x : DelegationRequest => x.id == requestId) _ ha]
      exact ih r h

def c4Caller : User :=
  { id := 31, name := "dana", role := .employee, company := 1, teams := [], isActive := true }

/-- Two pending requests: request 11 addressed to user 21 and request 12
addressed to user 31. -/
def c4Task : Task :=
  { id := 102, title := "t4", project := 200, company := 1, assignedTo := 10
    delegationRequests :=
      [{ id := 11, fromUser := 10, toUser := 21, reason := "a", status := .pending },
       { id := 12, fromUser := 10, toUser := 31, reason := "b", status := .pending }]
    isActive := true }

/-- C4: false as stated.  User 31 accepts pending request 11, whose `toUser`
is user 21; the accept succeeds and the task's new assignee is the *caller*
(31), not `R.toUser` (21) — the accept branch executes
`task.assignedTo = req.user.id`, never consulting the request's `toUser`. -/
theorem c4_counterexample :
    (resolveDelegationRequest [c4Task] c4Caller 11 .accept).1 = .success ∧
    (c4Task.delegationRequests.find? (fun r => r.id == 11)).map DelegationRequest.toUser
      = some 21 ∧
    ((resolveDelegationRequest [c4Task] c4Caller 11 .accept).2.map Task.assignedTo) = [31] ∧
    ((31 : Nat) == 21) = false := by
  refine ⟨rfl, rfl, rfl, rfl⟩

/-- C4 (amended): accepting a pending request R assigns the task to the
*caller* (which equals `R.toUser` exactly when the caller is the addressed
user); R's status becomes `accepted`; no other task field changes (the
updated task differs from the old one only in `assignedTo` and in R's
status); and every other request — in particular every other pending one —
is carried over unchanged. -/
theorem c4_accept_assigns_caller (tasks : List Task) (caller : User)
    (requestId : Nat) (ts2 : List Task)
    (h : resolveDelegationRequest tasks caller requestId .accept = (.success, ts2)) :
    ∃ t, t ∈ tasks ∧
      ∃ r, t.delegationRequests.find? (fun x => x.id == requestId) = some r ∧
        r.status = ReqStatus.pending ∧
        ts2 = tasks.map (fun x =>
          if x.id == t.id then
            { t with assignedTo := caller.id
                     delegationRequests :=
                       setRequestStatus requestId ReqStatus.accepted t.delegationRequests }
          else x) ∧
        (setRequestStatus requestId ReqStatus.accepted t.delegationRequests).find?
            (fun x => x.id == requestId) = some { r with status := ReqStatus.accepted } ∧
        (∀ r2 ∈ t.delegationRequests, r2.id ≠ requestId →
          r2 ∈ setRequestStatus requestId ReqStatus.accepted t.delegationRequests) := by
  unfold resolveDelegationRequest at h
  split at h
  next => exact absurd h (by simp)
  next t ht =>
    split at h
    next => exact absurd h (by simp)
    next r hr =>
      split at h
      next => exact absurd h (by simp)
      next hp =>
        have hpend : r.status = ReqStatus.pending := by
          cases hs : r.status with
          | pending => rfl
          | accepted => rw [hs] at hp; exact absurd (by decide) hp
          | rejected => rw [hs] at hp; exact absurd (by decide) hp
        injection h with _h1 h2
        exact ⟨t, List.mem_of_find?_eq_some ht, r, hr, hpend, h2.symm,
          find?_setRequestStatus requestId ReqStatus.accepted t.delegationRequests r hr,
          setRequestStatus_preserves_other requestId ReqStatus.accepted t.delegationRequests⟩

def c4wTask : Task :=
  { id := 103, title := "t4w", project := 200, company := 1, assignedTo := 10
    delegationRequests := [{ id := 13, fromUser := 10, toUser := 31, reason := "c", status := .pending }]
    isActive := true }

/-- C4 witness: the amended statement at a concrete accept by the addressed
user. -/
theorem c4_accept_assigns_caller_witness :
    ∃ t, t ∈ [c4wTask] ∧
      ∃ r, t.delegationRequests.find? (fun x => x.id == 13) = some r ∧
        r.status = ReqStatus.pending ∧
        (resolveDelegationRequest [c4wTask] c4Caller 13 .accept).2 = [c4wTask].map (fun x =>
          if x.id == t.id then
            { t with assignedTo := c4Caller.id
                     delegationRequests :=
                       setRequestStatus 13 ReqStatus.accepted t.delegationRequests }
          else x) ∧
        (setRequestStatus 13 ReqStatus.accepted t.delegationRequests).find?
            (fun x => x.id == 13) = some { r with status := ReqStatus.accepted } ∧
        (∀ r2 ∈ t.delegationRequests, r2.id ≠ 13 →
          r2 ∈ setRequestStatus 13 ReqStatus.accepted t.delegationRequests) :=
  c4_accept_assigns_caller [c4wTask] c4Caller 13
    (resolveDelegationRequest [c4wTask] c4Caller 13 .accept).2 rfl

/-! ### C9 — resolving a non-pending request -/

/-- C9: a resolve call addressed at a request that is no longer pending
answers with the already-processed error and returns the task list exactly
as it was: no field of any task, assignee, or delegation request changes. -/
theorem c9_non_pending_resolve_unchanged (tasks : List Task) (caller : User)
    (requestId : Nat) (action : DelegationAction) (t : Task) (r : DelegationRequest)
    (ht : tasks.find? (resolveTaskQuery caller requestId) = some t)
    (hr : t.delegationRequests.find? (fun x => x.id == requestId) = some r)
    (hst : r.status ≠ ReqStatus.pending) :
    resolveDelegationRequest tasks caller requestId action = (.alreadyProcessed, tasks) := by
  unfold resolveDelegationRequest
  split
  next ht2 => rw [ht2] at ht; exact absurd ht (by simp)
  next task ht2 =>
    rw [ht2] at ht
    injection ht with hteq
    subst hteq
    split
    next hr2 => rw [hr2] at hr; exact absurd hr (by simp)
    next req hr2 =>
      rw [hr2] at hr
      injection hr with hreq
      have hb : (req.status != ReqStatus.pending) = true := by
        rw [hreq]
        cases hs : r.status with
        | pending => exact absurd hs hst
        | accepted => decide
        | rejected => decide
      rw [if_pos hb]

def c9Caller : User :=
  { id := 30, name := "finn", role := .employee, company := 1, teams := [], isActive := true }

def c9Task : Task :=
  { id := 300, title := "t9", project := 200, company := 1, assignedTo := 10
    delegationRequests := [{ id := 5, fromUser := 10, toUser := 30, reason := "r", status := .accepted }]
    isActive := true }

/-- C9 witness: a second `accept` on an already accepted request fails with
the already-processed error leaving the task list unchanged. -/
theorem c9_non_pending_resolve_unchanged_witness :
    resolveDelegationRequest [c9Task] c9Caller 5 .accept = (.alreadyProcessed, [c9Task]) :=
  c9_non_pending_resolve_unchanged [c9Task] c9Caller 5 .accept c9Task
    { id := 5, fromUser := 10, toUser := 30, reason := "r", status := .accepted }
    rfl rfl (by decide)

/-! ### C5 — at most one pending request per (task, requesting user) -/

/-- Spec §3 / §8 invariant: at most one pending delegation request per
requesting user on a task. -/
def pendingPerUserBound (t : Task) : Prop :=
  ∀ u : Nat,
    t.delegationRequests.countP
      (fun r => r.status == ReqStatus.pending && r.fromUser == u) ≤ 1

/-- When the duplicate-check search returns without throwing, the request
list holds no pending element at all. -/
theorem existingRequestSearch_ok_none :
    ∀ l : List DelegationRequest, existingRequestSearch l = .ok none →
      ∀ r ∈ l, (r.status == ReqStatus.pending) = false := by
  intro l
  induction l with
  | nil => intro _ r hr; cases hr
  | cons a rest ih =>
    intro h r hr
    unfold existingRequestSearch at h
    by_cases ha : (a.status == ReqStatus.pending) = true
    · rw [if_pos ha] at h; exact absurd h (by simp)
    · rw [if_neg ha] at h
      cases hr with
      | head => simpa using ha
      | tail _ hmem => exact ih h r hmem

/-- A list with no pending element contributes zero to every per-user
pending count. -/
theorem countP_pending_zero (u : Nat) (l : List DelegationRequest)
    (h : ∀ r ∈ l, (r.status == ReqStatus.pending) = false) :
    l.countP (fun r => r.status == ReqStatus.pending && r.fromUser == u) = 0 := by
  rw [List.countP_eq_zero]
  intro r hr
  simp [h r hr]

/-- Appending one pending request to a pending-free list keeps every
per-user pending count at most one. -/
theorem bound_of_append_pending (old : List DelegationRequest)
    (nr : DelegationRequest)
    (hold : ∀ r ∈ old, (r.status == ReqStatus.pending) = false) :
    ∀ u : Nat,
      (old ++ [nr]).countP
        (fun r => r.status == ReqStatus.pending && r.fromUser == u) ≤ 1 := by
  intro u
  rw [List.countP_append, countP_pending_zero u old hold]
  have hle := List.countP_le_length
    (fun r : DelegationRequest => r.status == ReqStatus.pending && r.fromUser == u)
    (l := [nr])
  simpa using hle

/-- Rewriting one request's status to a non-pending value never increases a
per-user pending count. -/
theorem countP_setRequestStatus_le (requestId : Nat) (st : ReqStatus)
    (hst : (st == ReqStatus.pending) = false) (u : Nat) :
    ∀ l : List DelegationRequest,
      (setRequestStatus requestId st l).countP
          (fun r => r.status == ReqStatus.pending && r.fromUser == u)
        ≤ l.countP (fun r => r.status == ReqStatus.pending && r.fromUser == u) := by
  intro l
  induction l with
  | nil => simp [setRequestStatus]
  | cons a rest ih =>
    unfold setRequestStatus
    by_cases ha : (a.id == requestId) = true
    · rw [if_pos ha]
      rw [List.countP_cons, List.countP_cons]
      simp only [hst, Bool.false_and, if_neg Bool.false_ne_true]
      exact Nat.le_add_right_of_le (Nat.le_refl _)
    · rw [if_neg ha]
      rw [List.countP_cons, List.countP_cons]
      exact Nat.add_le_add_right ih _

/-- The delegate route preserves the per-user pending bound on every task:
non-success paths leave the list untouched, and the success path appends one
pending request to a task whose list the duplicate-check found pending-free. -/
theorem delegateTask_preserves_bound (tasks : List Task) (projects : List Project)
    (users : List User) (caller : User) (taskId toUserId : Nat) (reason : String)
    (freshId : Nat) (hinv : ∀ t ∈ tasks, pendingPerUserBound t) :
    ∀ t2 ∈ (delegateTask tasks projects users caller taskId toUserId reason freshId).2,
      pendingPerUserBound t2 := by
  intro t2 ht2
  unfold delegateTask at ht2
  split at ht2
  next => exact hinv t2 ht2
  next =>
    split at ht2
    next => exact hinv t2 ht2
    next task htask =>
      split at ht2
      next => exact hinv t2 ht2
      next proj hproj =>
        split at ht2
        next => exact hinv t2 ht2
        next =>
          split at ht2
          next => exact hinv t2 ht2
          next target htarget =>
            split at ht2
            next => exact hinv t2 ht2
            next => exact hinv t2 ht2
            next heq =>
              simp only [List.mem_map] at ht2
              obtain ⟨x, hx, hfx⟩ := ht2
              by_cases hxid : (x.id == task.id) = true
              · rw [if_pos hxid] at hfx
                subst hfx
                intro u
                exact bound_of_append_pending task.delegationRequests
                  { id := freshId, fromUser := caller.id, toUser := toUserId,
                    reason := jsTrim reason, status := .pending }
                  (existingRequestSearch_ok_none task.delegationRequests heq) u
              · rw [if_neg hxid] at hfx
                subst hfx
                exact hinv x hx

/-- The resolve route preserves the per-user pending bound on every task:
the only mutation turns one request's status from pending into a
non-pending value. -/
theorem resolveDelegationRequest_preserves_bound (tasks : List Task)
    (caller : User) (requestId : Nat) (action : DelegationAction)
    (hinv : ∀ t ∈ tasks, pendingPerUserBound t) :
    ∀ t2 ∈ (resolveDelegationRequest tasks caller requestId action).2,
      pendingPerUserBound t2 := by
  intro t2 ht2
  unfold resolveDelegationRequest at ht2
  split at ht2
  next => exact hinv t2 ht2
  next task htask =>
    split at ht2
    next => exact hinv t2 ht2
    next req hreq =>
      split at ht2
      next => exact hinv t2 ht2
      next =>
        simp only [List.mem_map] at ht2
        obtain ⟨x, hx, hfx⟩ := ht2
        by_cases hxid : (x.id == task.id) = true
        · rw [if_pos hxid] at hfx
          subst hfx
          intro u
          have hb := hinv task (List.mem_of_find?_eq_some htask) u
          refine le_trans
            (countP_setRequestStatus_le requestId _ ?_ u task.delegationRequests) hb
          cases action <;> decide
        · rw [if_neg hxid] at hfx
          subst hfx
          exact hinv x hx

/-- One step of the delegation subsystem on the task store: creating a task
(no delegation requests yet, per the task-creation route), a delegate call,
or a resolve call, each with arbitrary arguments. -/
inductive DelegationStep : List Task → List Task → Prop
  | createTask (ts : List Task) (t : Task) (h : t.delegationRequests = []) :
      DelegationStep ts (ts ++ [t])
  | delegate (ts : List Task) (projects : List Project) (users : List User)
      (caller : User) (taskId toUserId : Nat) (reason : String) (freshId : Nat) :
      DelegationStep ts (delegateTask ts projects users caller taskId toUserId reason freshId).2
  | resolve (ts : List Task) (caller : User) (requestId : Nat)
      (action : DelegationAction) :
      DelegationStep ts (resolveDelegationRequest ts caller requestId action).2

/-- Task stores reachable from the empty store by delegation-subsystem
steps. -/
inductive DelegationReachable : List Task → Prop
  | empty : DelegationReachable []
  | step {ts ts2 : List Task} : DelegationReachable ts → DelegationStep ts ts2 →
      DelegationReachable ts2

/-- C5: in every reachable task store, every task carries at most one
pending delegation request per distinct requesting user, and every operation
(create task, create request, accept, reject) preserves this. -/
theorem c5_pending_unique_invariant (ts : List Task)
    (h : DelegationReachable ts) : ∀ t ∈ ts, pendingPerUserBound t := by
  induction h with
  | empty => intro t ht; cases ht
  | step _ hstep ih =>
    cases hstep with
    | createTask t he =>
      intro t2 ht2
      rw [List.mem_append] at ht2
      cases ht2 with
      | inl hl => exact ih t2 hl
      | inr hr =>
        have ht2t : t2 = t := List.mem_singleton.mp hr
        subst ht2t
        intro u
        rw [he]
        simp
    | delegate projects users caller taskId toUserId reason freshId =>
      exact delegateTask_preserves_bound _ projects users caller taskId toUserId
        reason freshId ih
    | resolve caller requestId action =>
      exact resolveDelegationRequest_preserves_bound _ caller requestId action ih

def c5FreshTask : Task :=
  { id := 1, title := "new", project := 1, company := 1, assignedTo := 10
    delegationRequests := [], isActive := true }

/-- C5 witness: the invariant instantiated on a concretely reachable store
(one created task) and requesting user 10. -/
theorem c5_pending_unique_invariant_witness :
    c5FreshTask.delegationRequests.countP
      (fun r => r.status == ReqStatus.pending && r.fromUser == 10) ≤ 1 :=
  c5_pending_unique_invariant ([] ++ [c5FreshTask])
    (DelegationReachable.step DelegationReachable.empty
      (DelegationStep.createTask [] c5FreshTask rfl))
    c5FreshTask (by simp) 10

end TaskflowManage
